import Mathlib

/-!
Verification development for the Loris `RealTimeSynthesizer`
(`src/ThirdParty/Loris/src/RealtimeSynthesizer.{h,cpp}`), the real-time
streaming variant (the authoritative one per the design notes).

Conventions of the shallow embedding:
* C++ `double` is modelled as `ℚ` (exact arithmetic; the floating-point
  claims under scrutiny are structural, not rounding-sensitive).
* C++ `int` / `index_type` counters are modelled as `ℤ` (no overflow is at
  play in any claim).
* The caller's sample buffer is a `List ℚ`; `memset`/accumulate semantics
  are modelled at the level of sample values, and the byte-count arithmetic
  of the `memset` call is modelled separately (`memsetBytes` below).
* The external collaborators that are not part of this repository's sources
  (`RealtimeOscillator`, `BreakpointUtils::makeNullBefore/After`, the Loris
  `Partial` container) are modelled from the spec, as marked on each
  definition.
-/

set_option allowUnsafeReducibility true
attribute [semireducible] Rat.add Rat.mul Rat.sub Rat.inv Rat.ofScientific

namespace Loris

/-- The `Pi` constant from `RealtimeSynthesizer.h` (the header's literal
fallback value `3.14159265358979324`, modelled exactly as a rational). -/
def Pi : ℚ := 3.14159265358979324

/-- Loris `Breakpoint`: a time-stamped spectral snapshot
(frequency, amplitude, bandwidth, phase). -/
structure Breakpoint where
  frequency : ℚ
  amplitude : ℚ
  bandwidth : ℚ
  phase : ℚ
deriving DecidableEq, Repr, Inhabited

/-- Modelled from the spec: the state of the external `RealtimeOscillator`
collaborator is a serializable envelope snapshot (current frequency,
amplitude, bandwidth and phase), checkpointed between calls. -/
structure OscState where
  env : Breakpoint
deriving DecidableEq, Repr, Inhabited

/-- Modelled from the spec: `RealtimeOscillator::amplitude()` exposes the
current amplitude. -/
def OscState.amplitude (o : OscState) : ℚ := o.env.amplitude

/-- Modelled from the spec: `RealtimeOscillator::phase()` exposes the
current phase. -/
def OscState.phase (o : OscState) : ℚ := o.env.phase

/-- Modelled from the spec: `RealtimeOscillator::setPhase` overrides the
phase before oscillating a segment. -/
def OscState.setPhase (o : OscState) (ph : ℚ) : OscState :=
  ⟨{ o.env with phase := ph }⟩

/-- Modelled from the spec: `RealtimeOscillator::envelopes()` returns the
serializable envelope snapshot for the checkpoint/resume cycle. -/
def OscState.envelopes (o : OscState) : Breakpoint := o.env

/-- Modelled from the spec: `RealtimeOscillator::resetEnvelopes` starts the
oscillator from a given envelope snapshot. -/
def resetEnvelopes (bp : Breakpoint) (_srate : ℚ) : OscState := ⟨bp⟩

/-- Modelled from the spec: `RealtimeOscillator::restoreEnvelopes` restores
a previously checkpointed envelope snapshot. -/
def restoreEnvelopes (bp : Breakpoint) : OscState := ⟨bp⟩

/-- One oscillator sample step: ramp the envelope by the per-sample deltas
and emit one sample. Modelled from the spec (the oscillator's internal
waveform recursion is explicitly out of the spec's scope; this model emits
`amplitude + phase` so that both amplitude and phase state are observable
in the output). -/
def oscStep (dF dA dBW srInv : ℚ) (o : OscState) : ℚ × OscState :=
  let f := o.env.frequency + dF
  let a := o.env.amplitude + dA
  let bw := o.env.bandwidth + dBW
  let ph := o.env.phase + f * srInv
  (a + ph, ⟨⟨f, a, bw, ph⟩⟩)

/-- Iterate `oscStep` for a number of samples, collecting the output. -/
def oscRun (dF dA dBW srInv : ℚ) : ℕ → OscState → List ℚ × OscState
  | 0, o => ([], o)
  | n + 1, o =>
    let so := oscStep dF dA dBW srInv o
    let ro := oscRun dF dA dBW srInv n so.2
    (so.1 :: ro.1, ro.2)

/-- Modelled from the spec: `RealtimeOscillator::oscillate` renders `n`
samples from the current envelope toward the target breakpoint, linearly
interpolating the envelope over the span, and leaves the oscillator at the
target envelope values (with accumulated phase). A zero-length span renders
nothing and leaves the state untouched. -/
def oscillate (o : OscState) (tgt : Breakpoint) (n : ℕ) (srate : ℚ) :
    List ℚ × OscState :=
  if n = 0 then ([], o)
  else
    oscRun ((tgt.frequency - o.env.frequency) / n)
      ((tgt.amplitude - o.env.amplitude) / n)
      ((tgt.bandwidth - o.env.bandwidth) / n) (1 / srate) n o

/-- The "cheap rounding" idiom `index_type( x + 0.5 )` from the source
(truncation of a non-negative value, i.e. `⌊x + 1/2⌋`). -/
def rnd (x : ℚ) : ℤ := Rat.floor (x + 1 / 2)

/-- `PartialStruct::SynthesizerState` from `RealtimeSynthesizer.h`
(`prevFrequency` is uninitialized in C++; the model defaults it to 0 — it
is overwritten at activation before any use). -/
structure SynthesizerState where
  currentSamp : ℤ
  lastBreakpointIdx : ℤ
  envelope : Breakpoint
  prevFrequency : ℚ
deriving DecidableEq, Repr, Inhabited

/-- The sentinel `PartialStruct::NoBreakpointProcessed = 0` of the
real-time variant. -/
def NoBreakpointProcessed : ℤ := 0

/-- `PartialStruct` from `RealtimeSynthesizer.h`. -/
structure PartialStruct where
  startTime : ℚ
  endTime : ℚ
  numBreakpoints : ℤ
  breakpoints : List (ℚ × Breakpoint)
  state : SynthesizerState
deriving DecidableEq, Repr, Inhabited

/-- `p.breakpoints[i]` (total: out-of-range reads give the default pair,
mirroring that the C++ code never indexes out of range on prepared data). -/
def bpAt (p : PartialStruct) (i : ℤ) : ℚ × Breakpoint :=
  p.breakpoints.getD i.toNat default

/-- The store `bp->_phase = m_osc.phase()` into `p.breakpoints[i]`. -/
def setBpPhase (p : PartialStruct) (i : ℤ) (ph : ℚ) : PartialStruct :=
  { p with breakpoints :=
      p.breakpoints.set i.toNat ((bpAt p i).1, { (bpAt p i).2 with phase := ph }) }

/-- Modelled from the spec: `BreakpointUtils::makeNullBefore` produces a
zero-amplitude breakpoint at a time offset `dt` before a real breakpoint,
consistent in frequency/phase (phase rolled back by `frequency * dt`). -/
def makeNullBefore (bp : Breakpoint) (dt : ℚ) : Breakpoint :=
  ⟨bp.frequency, 0, 0, bp.phase - bp.frequency * dt⟩

/-- Modelled from the spec: `BreakpointUtils::makeNullAfter` produces a
zero-amplitude breakpoint at a time offset `dt` after a real breakpoint,
consistent in frequency/phase (phase advanced by `frequency * dt`). -/
def makeNullAfter (bp : Breakpoint) (dt : ℚ) : Breakpoint :=
  ⟨bp.frequency, 0, 0, bp.phase + bp.frequency * dt⟩

/-- Modelled from the spec: a Source Partial (the external Loris `Partial`)
is an ordered sequence of time-stamped breakpoints. -/
structure PartialSource where
  bps : List (ℚ × Breakpoint)
deriving DecidableEq, Repr, Inhabited

/-- `Partial::startTime()`: the time of the first breakpoint. Modelled from
the spec's description of the Source Partial. -/
def PartialSource.startTime (sp : PartialSource) : ℚ := (sp.bps.headD default).1

/-- `Partial::endTime()`: the time of the last breakpoint. Modelled from
the spec's description of the Source Partial. -/
def PartialSource.endTime (sp : PartialSource) : ℚ := (sp.bps.getLastD default).1

/-- The body of the `setup` loop for one source partial
(`RealtimeSynthesizer.cpp` lines 99–119): fade-in/fade-out breakpoints are
inserted at either end, the synthetic start time is
`(fade < start) ? start - fade : 0`, and the synthesizer state fields get
their C++ default-member values. -/
def preparePartialStruct (fade : ℚ) (sp : PartialSource) : PartialStruct :=
  let startTime := if fade < sp.startTime then sp.startTime - fade else 0
  { startTime := startTime
    endTime := sp.endTime + fade
    numBreakpoints := (sp.bps.length : ℤ) + 2
    breakpoints :=
      (startTime, makeNullBefore (sp.bps.headD default).2 (sp.startTime - startTime)) ::
        (sp.bps ++ [(sp.endTime + fade, makeNullAfter (sp.bps.getLastD default).2 fade)])
    state := default }

/-- The `setup` loop over the partial list (`RealtimeSynthesizer.cpp`
lines 95–120): a source partial with `numBreakpoints() <= 0` is skipped,
every other partial is transformed by `preparePartialStruct`. -/
def setupPartials (fade : ℚ) : List PartialSource → List PartialStruct
  | [] => []
  | sp :: rest =>
    if (sp.bps.length : ℤ) ≤ 0 then setupPartials fade rest
    else preparePartialStruct fade sp :: setupPartials fade rest

/-- The mutable session state of `RealTimeSynthesizer`: the prepared
partial vector, the activation cursor `partialIdx`, the global
`processedSamples` counter, and the `partialsBeingProcessed` queue (the C++
queue stores raw pointers into the partial vector; the model stores the
corresponding indices). -/
structure SynthState where
  partials : List PartialStruct
  partialIdx : ℕ
  processedSamples : ℤ
  queue : List ℕ
deriving DecidableEq, Repr, Inhabited

/-- `RealTimeSynthesizer::reset` (lines 147–152): rewind `partialIdx` and
`processedSamples` and clear the queue; the partial vector is untouched. -/
def reset (st : SynthState) : SynthState :=
  { st with partialIdx := 0, processedSamples := 0, queue := [] }

/-- `RealTimeSynthesizer::setup` (lines 88–123): clear previous data, build
the prepared partial vector, then `reset()`. -/
def setup (fade : ℚ) (sources : List PartialSource) : SynthState :=
  reset { partials := setupPartials fade sources
          partialIdx := 0
          processedSamples := 0
          queue := [] }

/-- Accumulate the samples `xs` into `buf` starting at offset `off`
(additive writes — `m_osc.oscillate` adds into the caller's window; writes
past the end of `buf` are dropped, the length of `buf` never changes). -/
def addInto (buf : List ℚ) (off : ℕ) (xs : List ℚ) : List ℚ :=
  buf.take off ++ (buf.drop off).zipWith (· + ·) xs ++ buf.drop (off + xs.length)

/-- The phase-continuity correction at the head of each segment
(`RealtimeSynthesizer.cpp` lines 279–292): when the oscillator's current
amplitude is exactly zero, the phase is overridden with
`bp->phase() - Pi * (prevFrequency + bp->frequency()) * sampleDiff * OneOverSrate`.
The `OneOverSrate` cached reciprocal is `1 / srate`. -/
def phaseCorrectedOsc (srate prevFreq : ℚ) (bp : Breakpoint) (sampleDiff : ℤ)
    (osc : OscState) : OscState :=
  if osc.amplitude = 0 then
    osc.setPhase (bp.phase - Pi * (prevFreq + bp.frequency) * (sampleDiff : ℚ) * (1 / srate))
  else osc

/-- One segment of `RealTimeSynthesizer::synthesize` after span/index
resolution (lines 273–304): apply the phase-continuity correction,
oscillate `sampleDiff` samples toward `p.breakpoints[j]` accumulating into
the buffer at `off`, store the oscillator's ending phase back into
`p.breakpoints[j]`, and update `prevFrequency` / `lastBreakpointIdx` /
`currentSamp`. -/
def synthSeg (srate : ℚ) (p : PartialStruct) (osc : OscState) (buf : List ℚ)
    (off : ℕ) (sampleDiff j : ℤ) : PartialStruct × OscState × List ℚ :=
  let bp := (bpAt p j).2
  let osc1 := phaseCorrectedOsc srate p.state.prevFrequency bp sampleDiff osc
  let ro := oscillate osc1 bp sampleDiff.toNat srate
  let p1 := setBpPhase p j ro.2.phase
  ({ p1 with state := { p1.state with
       prevFrequency := bp.frequency
       lastBreakpointIdx := j
       currentSamp := p1.state.currentSamp + sampleDiff } },
   ro.2, addInto buf off ro.1)

/-- The segment loop of `RealTimeSynthesizer::synthesize` (lines 259–308).
`tgt` is the cheap-rounded target sample of breakpoint `i`; if the
cumulative `counter` plus the raw span overshoots the `samples` budget, the
span is clipped to `samples - counter` and the loop works on index `i - 1`
(the `i--` of line 270, which both freezes `lastBreakpointIdx` and selects
the breakpoint used for the clipped span) and then necessarily breaks;
otherwise the full segment is rendered and the loop breaks only when the
budget is exactly exhausted. `fuel` bounds the iteration count; the caller
passes `numBreakpoints - i`, which the loop can never exceed. -/
def synthLoop (srate : ℚ) (samples : ℤ) :
    ℕ → PartialStruct → OscState → List ℚ → ℕ → ℤ → ℤ →
    PartialStruct × OscState × List ℚ
  | 0, p, osc, buf, _off, _counter, _i => (p, osc, buf)
  | fuel + 1, p, osc, buf, off, counter, i =>
    if i < p.numBreakpoints then
      let tgt := rnd ((bpAt p i).1 * srate)
      if counter + (tgt - p.state.currentSamp) > samples then
        synthSeg srate p osc buf off (samples - counter) (i - 1)
      else
        let r := synthSeg srate p osc buf off (tgt - p.state.currentSamp) i
        if counter + (tgt - p.state.currentSamp) ≥ samples then r
        else
          synthLoop srate samples fuel r.1 r.2.1 r.2.2
            (off + (tgt - p.state.currentSamp).toNat)
            (counter + (tgt - p.state.currentSamp)) (i + 1)
    else (p, osc, buf)

/-- The early-return guard of `RealTimeSynthesizer::synthesize` (line 240):
`p.numBreakpoints <= 0 || p.startTime < 0`. -/
def synthGuard (p : PartialStruct) : Prop :=
  p.numBreakpoints ≤ 0 ∨ p.startTime < 0

instance (p : PartialStruct) : Decidable (synthGuard p) :=
  inferInstanceAs (Decidable (_ ∨ _))

/-- `RealTimeSynthesizer::synthesize` (lines 238–312): guards, envelope
reset/restore, the segment loop starting at `lastBreakpointIdx + 1` with
`sampleCounter = 0`, and the final envelope checkpoint. -/
def synthesize (srate : ℚ) (p : PartialStruct) (buf : List ℚ) (samples : ℤ) :
    PartialStruct × List ℚ :=
  if synthGuard p then (p, buf)
  else if p.state.lastBreakpointIdx ≥ p.numBreakpoints - 1 then (p, buf)
  else
    let osc :=
      if p.state.lastBreakpointIdx = NoBreakpointProcessed then
        resetEnvelopes p.state.envelope srate
      else restoreEnvelopes p.state.envelope
    let r := synthLoop srate samples (p.numBreakpoints - (p.state.lastBreakpointIdx + 1)).toNat
      p osc buf 0 0 (p.state.lastBreakpointIdx + 1)
    ({ r.1 with state := { r.1.state with envelope := r.2.1.envelopes } }, r.2.2)

/-- The queue-draining phase of `synthesizeNext` (lines 188–198): each
partial in the queue is synthesized once and re-queued exactly when
`lastBreakpointIdx < numBreakpoints - 1`. -/
def processQueue (srate : ℚ) (samples : ℤ) :
    List PartialStruct → List ℕ → List ℚ →
    List PartialStruct × List ℕ × List ℚ
  | parts, [], block => (parts, [], block)
  | parts, idx :: rest, block =>
    let p := parts.getD idx default
    let r := synthesize srate p block samples
    let parts1 := parts.set idx r.1
    let rec2 := processQueue srate samples parts1 rest r.2
    (rec2.1,
     (if r.1.state.lastBreakpointIdx < r.1.numBreakpoints - 1 then [idx] else []) ++ rec2.2.1,
     rec2.2.2)

/-- The activation scan of `synthesizeNext` (lines 200–222): starting at
`partialIdx`, each partial gets `currentSamp = rnd(startTime * srate)`
(this write happens even for the partial at which the scan stops); the scan
breaks at the first partial with `currentSamp > processedSamples`; an
activated partial gets `lastBreakpointIdx = NoBreakpointProcessed`, its
envelope from `breakpoints[0]` and `prevFrequency` from `breakpoints[1]`,
is synthesized immediately, and is queued when unfinished. `fuel` bounds
the scan; the caller passes the number of remaining partials. -/
def activateLoop (srate : ℚ) (processed samples : ℤ) :
    ℕ → List PartialStruct → ℕ → List ℚ →
    List PartialStruct × ℕ × List ℕ × List ℚ
  | 0, parts, idx, block => (parts, idx, [], block)
  | fuel + 1, parts, idx, block =>
    if idx < parts.length then
      let p := parts.getD idx default
      let cs := rnd (p.startTime * srate)
      let p0 := { p with state := { p.state with currentSamp := cs } }
      if cs > processed then (parts.set idx p0, idx, [], block)
      else
        let p1 := { p0 with state := { p0.state with
                      lastBreakpointIdx := NoBreakpointProcessed
                      envelope := (bpAt p0 0).2
                      prevFrequency := (bpAt p0 1).2.frequency } }
        let r := synthesize srate p1 block samples
        let parts1 := parts.set idx r.1
        let rec2 := activateLoop srate processed samples fuel parts1 (idx + 1) r.2
        (rec2.1, rec2.2.1,
         (if r.1.state.lastBreakpointIdx < r.1.numBreakpoints - 1 then [idx] else []) ++ rec2.2.2.1,
         rec2.2.2.2)
    else (parts, idx, [], block)

/-- `RealTimeSynthesizer::synthesizeNext` (lines 177–223):
`processedSamples += samples` first, the block is cleared to zeros, the
queue is drained, then the activation scan runs; the new queue is the
surviving old entries followed by the newly activated unfinished partials.
The per-call output block is returned alongside the new session state. -/
def synthesizeNext (srate : ℚ) (st : SynthState) (samples : ℤ) :
    SynthState × List ℚ :=
  let processed := st.processedSamples + samples
  let block0 : List ℚ := List.replicate samples.toNat 0
  let q := processQueue srate samples st.partials st.queue block0
  let a := activateLoop srate processed samples (q.1.length - st.partialIdx)
    q.1 st.partialIdx q.2.2
  ({ partials := a.1
     partialIdx := a.2.1
     processedSamples := processed
     queue := q.2.1 ++ a.2.2.1 },
   a.2.2.2)

/-- Run a sequence of `synthesizeNext` calls, concatenating the produced
blocks (the caller-side view of a call-size decomposition). -/
def runBlocks (srate : ℚ) (st : SynthState) : List ℤ → SynthState × List ℚ
  | [] => (st, [])
  | n :: rest =>
    let r := synthesizeNext srate st n
    let r2 := runBlocks srate r.1 rest
    (r2.1, r.2 ++ r2.2)

/-- The size in bytes of `decltype(buffer->data())`, i.e. of a `float *`
pointer, on an LP64 platform: 8. This is the unit the `memset` at
`RealtimeSynthesizer.cpp` line 185 actually uses. -/
def sizeofFloatPtr : ℕ := 8

/-- The size in bytes of one `float` buffer sample: 4. -/
def sizeofFloat : ℕ := 4

/-- The byte count of the clear at line 185:
`memset(buffer->data(), 0, samples * sizeof(decltype(buffer->data())))`. -/
def memsetBytes (samples : ℕ) : ℕ := samples * sizeofFloatPtr

/-- How many float samples the `memset` at line 185 zeroes. -/
def clearedSamples (samples : ℕ) : ℕ := memsetBytes samples / sizeofFloat

/-- The buffer preparation of `synthesizeNext` (lines 183–184): when
`buffer->size() < samples`, `buffer->reserve(samples)` grows the capacity to
at least `samples` without changing the size; there is no failure branch.
The result is the `(size, capacity)` pair after the call. -/
def prepareBuffer (size cap samples : ℕ) : ℕ × ℕ :=
  if size < samples then (size, max cap samples) else (size, cap)

/-- Follows the spec's words (for comparison against `phaseCorrectedOsc`):
the starting phase is recomputed "if and only if the oscillator's currently
rendered amplitude is exactly zero and the target breakpoint's amplitude is
nonzero". -/
def phaseCorrectedOscSpec (srate prevFreq : ℚ) (bp : Breakpoint) (sampleDiff : ℤ)
    (osc : OscState) : OscState :=
  if osc.amplitude = 0 ∧ bp.amplitude ≠ 0 then
    osc.setPhase (bp.phase - Pi * (prevFreq + bp.frequency) * (sampleDiff : ℚ) * (1 / srate))
  else osc

/-- The breakpoints of `p` have non-decreasing rounded target sample
indices (a consequence of the strictly-increasing breakpoint times of a
valid partial). -/
def TargetsMonotone (srate : ℚ) (p : PartialStruct) : Prop :=
  ∀ j : ℕ, j < p.breakpoints.length - 1 →
    rnd ((p.breakpoints.getD j default).1 * srate) ≤
      rnd ((p.breakpoints.getD (j + 1) default).1 * srate)

instance (srate : ℚ) (p : PartialStruct) : Decidable (TargetsMonotone srate p) :=
  inferInstanceAs (Decidable (∀ j : ℕ, j < p.breakpoints.length - 1 →
    rnd ((p.breakpoints.getD j default).1 * srate) ≤
      rnd ((p.breakpoints.getD (j + 1) default).1 * srate)))

/-- A concrete real breakpoint (440-style partial scaled down to tiny
numbers): frequency 1, amplitude 1, bandwidth 0, phase 0. -/
def exBp : Breakpoint := ⟨1, 1, 0, 0⟩

/-- A concrete zero-amplitude breakpoint with frequency 1. -/
def exNull : Breakpoint := ⟨1, 0, 0, 0⟩

/-- A concrete source partial: one breakpoint at time 3. -/
def exSource : PartialSource := ⟨[(3, exBp)]⟩

/-- The example session: `setup` with fade time 1 on `exSource` (used with
sample rate 1, so the prepared partial becomes due at sample 2). -/
def exState : SynthState := setup 1 [exSource]

/-- A source partial with a negative start time (its single breakpoint is
at time `-1`). -/
def negSource : PartialSource := ⟨[(-1, exBp)]⟩

/-- A concrete prepared partial in mid-activation state used to exercise
the segment-clipping branch: at sample rate 10 its first segment spans
samples 60–70. -/
def pW6 : PartialStruct :=
  { startTime := 6, endTime := 8, numBreakpoints := 3
    breakpoints := [(6, exNull), (7, exBp), (8, exNull)]
    state := { currentSamp := 60, lastBreakpointIdx := 0, envelope := exNull
               prevFrequency := 1 } }

/-- A concrete prepared partial in freshly-activated state (sample rate 1,
segments at samples 2, 3, 4) used to exercise the state invariants. -/
def pW9 : PartialStruct :=
  { startTime := 2, endTime := 4, numBreakpoints := 3
    breakpoints := [(2, exNull), (3, exBp), (4, exNull)]
    state := { currentSamp := 2, lastBreakpointIdx := 0, envelope := exNull
               prevFrequency := 1 } }

/-- Claim C1: the spec demands that any call-size decomposition produce
output identical to a single monolithic render. The code violates this: on
the example session (one partial due at sample 2, sample rate 1, fade 1),
`renderBlock(1); renderBlock(3)` and `renderBlock(4)` produce concatenated
outputs of equal length 4 that differ — a newly due partial is rendered
from offset 0 of whichever block activates it, with no intra-block offset,
so its samples land at stream position 1 in the decomposition but at
position 0 in the monolithic call. -/
theorem c1_chunking_decomposition_differs :
    (runBlocks 1 exState [1, 3]).2 ≠ (runBlocks 1 exState [4]).2 ∧
      ((runBlocks 1 exState [1, 3]).2).length = ((runBlocks 1 exState [4]).2).length := by
  decide

/-- Claim C2 (counterexample): the claim says a `renderBlock(N)` call with
buffer capacity < N fails with a `BufferTooSmall` error and produces no
output. The code has no such failure path: with buffer size and capacity 0
and N = 1, line 183 merely reserves capacity 1 and the call proceeds,
producing a full 1-sample output block and advancing `processedSamples`. -/
theorem c2_counterexample :
    prepareBuffer 0 0 1 = (0, 1) ∧
      ((synthesizeNext 1 exState 1).2).length = 1 ∧
      (synthesizeNext 1 exState 1).1.processedSamples = 1 := by
  decide

/-- Claim C3 (counterexample): replaying the same block sizes after
`reset()` does not reproduce the original output bit-for-bit. On the
example session, rendering stores the oscillator's ending phase back into
`breakpoints[1]` (line 298); `reset()` does not restore it, so the replayed
first block differs from the original. -/
theorem c3_counterexample :
    (runBlocks 1 (reset (runBlocks 1 exState [4]).1) [4]).2 ≠
      (runBlocks 1 exState [4]).2 := by
  decide

/-- Claim C4 (counterexample): the code's phase-recompute condition (line
279) tests only `m_osc.amplitude() == 0.`, not the target breakpoint's
amplitude. With oscillator amplitude 0 and target amplitude also 0 the code
still recomputes the phase, while the claim's "if and only if" condition
says it must not: the two behaviours differ at this input. -/
theorem c4_counterexample :
    phaseCorrectedOsc 1 0 ⟨0, 0, 0, 5⟩ 0 ⟨⟨0, 0, 0, 0⟩⟩ ≠
      phaseCorrectedOscSpec 1 0 ⟨0, 0, 0, 5⟩ 0 ⟨⟨0, 0, 0, 0⟩⟩ := by
  decide

/-- Claim C4 (amended): the starting phase is recomputed as
`bp.phase - Pi * (prevFrequency + bp.frequency) * span / srate` if and only
if the oscillator's currently rendered amplitude is exactly zero,
regardless of the target breakpoint's amplitude. -/
theorem c4_phase_reset_condition (srate prevFreq : ℚ) (bp : Breakpoint)
    (sampleDiff : ℤ) (osc : OscState) :
    (osc.amplitude = 0 →
      phaseCorrectedOsc srate prevFreq bp sampleDiff osc =
        osc.setPhase
          (bp.phase - Pi * (prevFreq + bp.frequency) * (sampleDiff : ℚ) * (1 / srate))) ∧
    (osc.amplitude ≠ 0 →
      phaseCorrectedOsc srate prevFreq bp sampleDiff osc = osc) := by
  constructor <;> intro h <;> simp [phaseCorrectedOsc, h]

/-- Witness for `c4_phase_reset_condition` at a concrete input with
oscillator amplitude 0. -/
theorem c4_phase_reset_condition_witness :
    phaseCorrectedOsc 1 0 ⟨0, 0, 0, 5⟩ 0 ⟨⟨0, 0, 0, 0⟩⟩ =
      OscState.setPhase ⟨⟨0, 0, 0, 0⟩⟩
        (Breakpoint.phase ⟨0, 0, 0, 5⟩ -
          Pi * (0 + Breakpoint.frequency ⟨0, 0, 0, 5⟩) * ((0 : ℤ) : ℚ) * (1 / 1)) :=
  (c4_phase_reset_condition 1 0 ⟨0, 0, 0, 5⟩ 0 ⟨⟨0, 0, 0, 0⟩⟩).1 rfl

/-- Claim C5: the `memset` at line 185 uses
`samples * sizeof(decltype(buffer->data()))`, i.e. `sizeof(float *)` = 8
bytes per sample instead of `sizeof(float)` = 4: for `renderBlock(1)` it
zeroes 8 bytes = 2 float samples, not exactly the first 1 sample the spec
requires, writing past index N-1. -/
theorem c5_memset_clears_twice_the_window :
    clearedSamples 1 = 2 ∧ memsetBytes 1 ≠ 1 * sizeofFloat ∧
      (∀ n : ℕ, clearedSamples n = 2 * n) := by
  refine ⟨rfl, by decide, fun n => ?_⟩
  simp [clearedSamples, memsetBytes, sizeofFloatPtr, sizeofFloat]
  omega

/-- Claim C8 (counterexample): a source partial whose single breakpoint is
at time `-1` (negative original start time) is not rejected by `setup` —
the prepared session contains one Render Partial for it. -/
theorem c8_counterexample :
    negSource.startTime < 0 ∧ (setup (1 / 2) [negSource]).partials.length = 1 := by
  decide

/-- Membership in the prepared partial list: exactly the source partials
with a positive breakpoint count contribute, each via
`preparePartialStruct` (helper lemma shared by the setup theorems). -/
theorem mem_setupPartials (fade : ℚ) (sources : List PartialSource)
    (p : PartialStruct) :
    p ∈ setupPartials fade sources ↔
      ∃ sp, sp ∈ sources ∧ 0 < sp.bps.length ∧ p = preparePartialStruct fade sp := by
  induction sources with
  | nil => simp [setupPartials]
  | cons sp rest ih =>
    by_cases h : (sp.bps.length : ℤ) ≤ 0
    · have h0 : sp.bps.length = 0 := by omega
      rw [setupPartials, if_pos h, ih]
      constructor
      · rintro ⟨sq, hq, hlen, hp⟩
        exact ⟨sq, List.mem_cons_of_mem _ hq, hlen, hp⟩
      · rintro ⟨sq, hq, hlen, hp⟩
        rcases List.mem_cons.mp hq with hq | hq
        · subst hq; omega
        · exact ⟨sq, hq, hlen, hp⟩
    · have h0 : 0 < sp.bps.length := by omega
      rw [setupPartials, if_neg h]
      constructor
      · intro hp
        rcases List.mem_cons.mp hp with hp | hp
        · exact ⟨sp, List.mem_cons_self _ _, h0, hp⟩
        · rcases (ih).mp hp with ⟨sq, hq, hlen, hpq⟩
          exact ⟨sq, List.mem_cons_of_mem _ hq, hlen, hpq⟩
      · rintro ⟨sq, hq, hlen, hp⟩
        rcases List.mem_cons.mp hq with hq | hq
        · subst hq; exact hp ▸ List.mem_cons_self _ _
        · exact List.mem_cons_of_mem _ ((ih).mpr ⟨sq, hq, hlen, hp⟩)

/-- Claim C8 (amended): during Partial Preparation only a non-positive
breakpoint count causes rejection; a negative original start time is not
checked (`setup` clamps the fade-in time to 0 instead and keeps the
partial). The prepared list is exactly the non-empty source partials, in
order, each transformed by `preparePartialStruct`. -/
theorem c8_rejection_rule (fade : ℚ) (sources : List PartialSource) :
    (setup fade sources).partials =
      (sources.filter (fun sp => decide (0 < sp.bps.length))).map
        (preparePartialStruct fade) ∧
    (setup fade sources).partials.length =
      (sources.filter (fun sp => decide (0 < sp.bps.length))).length := by
  have h : ∀ l : List PartialSource, setupPartials fade l =
      (l.filter (fun sp => decide (0 < sp.bps.length))).map
        (preparePartialStruct fade) := by
    intro l
    induction l with
    | nil => rfl
    | cons sp rest ih =>
      by_cases h0 : (sp.bps.length : ℤ) ≤ 0
      · have hd : (decide (0 < sp.bps.length)) = false := by
          simp only [decide_eq_false_iff_not, not_lt]
          omega
        rw [setupPartials, if_pos h0, List.filter_cons, hd]
        simpa using ih
      · have hd : (decide (0 < sp.bps.length)) = true := by
          simp only [decide_eq_true_eq]
          omega
        rw [setupPartials, if_neg h0, List.filter_cons, hd]
        simpa using ih
  refine ⟨h sources, ?_⟩
  show (setupPartials fade sources).length = _
  rw [h sources, List.length_map]

/-- Claim C7: for every source partial with at least one breakpoint, the
Render Partial built by `setup` has synthetic start time exactly
`max 0 (startTime - fade)`, a final breakpoint at `endTime + fade`,
breakpoint count equal to the original count plus 2, and both synthetic
boundary breakpoints of amplitude exactly 0. -/
theorem c7_fade_bounds (fade : ℚ) (sources : List PartialSource)
    (sp : PartialSource) (hmem : sp ∈ sources) (hne : sp.bps ≠ []) :
    preparePartialStruct fade sp ∈ (setup fade sources).partials ∧
    (preparePartialStruct fade sp).startTime = max 0 (sp.startTime - fade) ∧
    ((preparePartialStruct fade sp).breakpoints.getLastD default).1 =
      sp.endTime + fade ∧
    (preparePartialStruct fade sp).breakpoints.length = sp.bps.length + 2 ∧
    (preparePartialStruct fade sp).numBreakpoints = (sp.bps.length : ℤ) + 2 ∧
    ((preparePartialStruct fade sp).breakpoints.headD default).2.amplitude = 0 ∧
    ((preparePartialStruct fade sp).breakpoints.getLastD default).2.amplitude = 0 := by
  have hlen : 0 < sp.bps.length := List.length_pos.mpr hne
  have hmem2 : preparePartialStruct fade sp ∈ setupPartials fade sources :=
    (mem_setupPartials fade sources _).mpr ⟨sp, hmem, hlen, rfl⟩
  have hlast : ∀ x : ℚ × Breakpoint,
      ((preparePartialStruct fade sp).breakpoints.getLastD x) =
        (sp.endTime + fade, makeNullAfter (sp.bps.getLastD default).2 fade) := by
    intro x
    show ((_, _) :: (sp.bps ++ [_])).getLastD x = _
    rw [List.getLastD_cons, List.getLastD_concat]
  refine ⟨hmem2, ?_, ?_, ?_, rfl, rfl, ?_⟩
  · show (if fade < sp.startTime then sp.startTime - fade else 0) = _
    by_cases h : fade < sp.startTime
    · rw [if_pos h, max_eq_right (by linarith)]
    · rw [if_neg h, max_eq_left (by linarith [not_lt.mp h])]
  · rw [hlast]
  · show ((_, _) :: (sp.bps ++ [_])).length = _
    simp
  · rw [hlast]
    rfl

/-- Witness for `c7_fade_bounds` on the example source partial. -/
theorem c7_fade_bounds_witness :
    preparePartialStruct 1 exSource ∈ (setup 1 [exSource]).partials ∧
    (preparePartialStruct 1 exSource).startTime = max 0 (exSource.startTime - 1) ∧
    ((preparePartialStruct 1 exSource).breakpoints.getLastD default).1 =
      exSource.endTime + 1 ∧
    (preparePartialStruct 1 exSource).breakpoints.length = exSource.bps.length + 2 ∧
    (preparePartialStruct 1 exSource).numBreakpoints = (exSource.bps.length : ℤ) + 2 ∧
    ((preparePartialStruct 1 exSource).breakpoints.headD default).2.amplitude = 0 ∧
    ((preparePartialStruct 1 exSource).breakpoints.getLastD default).2.amplitude = 0 :=
  c7_fade_bounds 1 [exSource] exSource (List.mem_cons_self _ _) (by decide)

/-- Claim C10: every Render Partial produced by `setup` has at least 3
breakpoints, a consistent `numBreakpoints` field, a non-negative start
time, and therefore the `breakpoints[0]` / `breakpoints[1]` activation
reads are in bounds and the early-return guard of `synthesize` (negative
start time or non-positive breakpoint count, line 240) is unreachable. -/
theorem c10_prepared_partials_safe (fade : ℚ) (sources : List PartialSource)
    (p : PartialStruct) (hp : p ∈ (setup fade sources).partials) :
    3 ≤ p.breakpoints.length ∧ (3 : ℤ) ≤ p.numBreakpoints ∧ 0 ≤ p.startTime ∧
    p.numBreakpoints = (p.breakpoints.length : ℤ) ∧ ¬ synthGuard p ∧
    0 < p.breakpoints.length ∧ 1 < p.breakpoints.length := by
  rcases (mem_setupPartials fade sources p).mp hp with ⟨sp, _, hlen, rfl⟩
  have hbl : (preparePartialStruct fade sp).breakpoints.length = sp.bps.length + 2 := by
    show ((_, _) :: (sp.bps ++ [_])).length = _
    simp
  have hst : 0 ≤ (preparePartialStruct fade sp).startTime := by
    show (0 : ℚ) ≤ if fade < sp.startTime then sp.startTime - fade else 0
    by_cases h : fade < sp.startTime
    · rw [if_pos h]; linarith
    · rw [if_neg h]
  have hnb : (preparePartialStruct fade sp).numBreakpoints = (sp.bps.length : ℤ) + 2 := rfl
  refine ⟨by omega, by omega, hst, by rw [hnb, hbl]; push_cast; ring, ?_, by omega, by omega⟩
  intro hg
  rcases hg with hg | hg
  · omega
  · exact absurd hst (not_le.mpr hg)

/-- Witness for `c10_prepared_partials_safe` on the example session. -/
theorem c10_prepared_partials_safe_witness :
    3 ≤ (preparePartialStruct 1 exSource).breakpoints.length ∧
    (3 : ℤ) ≤ (preparePartialStruct 1 exSource).numBreakpoints ∧
    0 ≤ (preparePartialStruct 1 exSource).startTime ∧
    (preparePartialStruct 1 exSource).numBreakpoints =
      ((preparePartialStruct 1 exSource).breakpoints.length : ℤ) ∧
    ¬ synthGuard (preparePartialStruct 1 exSource) ∧
    0 < (preparePartialStruct 1 exSource).breakpoints.length ∧
    1 < (preparePartialStruct 1 exSource).breakpoints.length :=
  c10_prepared_partials_safe 1 [exSource] (preparePartialStruct 1 exSource) (by decide)

/-- Claim C3 (amended): `reset()` rewinds `partialIdx`, `processedSamples`
and the queue but does not restore the partial vector; replaying the same
block sizes reproduces the original run exactly whenever the first pass
left the partial vector unchanged (in general the stored breakpoint phases
are mutated by rendering, and replay differs — see the counterexample). -/
theorem c3_reset_replay (srate fade : ℚ) (sources : List PartialSource)
    (blocks : List ℤ)
    (hpres : (runBlocks srate (setup fade sources) blocks).1.partials =
      (setup fade sources).partials) :
    runBlocks srate (reset (runBlocks srate (setup fade sources) blocks).1) blocks =
      runBlocks srate (setup fade sources) blocks := by
  have h2 : reset (runBlocks srate (setup fade sources) blocks).1 = setup fade sources := by
    have := congrArg (fun l => SynthState.mk l 0 0 []) hpres
    exact this
  rw [h2]

/-- Witness for `c3_reset_replay`: on an empty session the run leaves the
(empty) partial vector unchanged and replay coincides. -/
theorem c3_reset_replay_witness :
    runBlocks 1 (reset (runBlocks 1 (setup 1 []) [2]).1) [2] =
      runBlocks 1 (setup 1 []) [2] :=
  c3_reset_replay 1 1 [] [2] (by decide)

/-- Accumulating into a buffer never changes its length (helper lemma). -/
theorem length_addInto (buf : List ℚ) (off : ℕ) (xs : List ℚ) :
    (addInto buf off xs).length = buf.length := by
  simp only [addInto, List.length_append, List.length_take, List.length_zipWith,
    List.length_drop]
  omega

/-- One segment leaves the buffer length unchanged (helper lemma). -/
theorem length_synthSeg (srate : ℚ) (p : PartialStruct) (osc : OscState)
    (buf : List ℚ) (off : ℕ) (d j : ℤ) :
    ((synthSeg srate p osc buf off d j).2.2).length = buf.length :=
  length_addInto buf off _

/-- The segment loop leaves the buffer length unchanged (helper lemma). -/
theorem length_synthLoop (srate : ℚ) (samples : ℤ) (fuel : ℕ) :
    ∀ (p : PartialStruct) (osc : OscState) (buf : List ℚ) (off : ℕ) (counter i : ℤ),
      ((synthLoop srate samples fuel p osc buf off counter i).2.2).length = buf.length := by
  induction fuel with
  | zero => intros; rfl
  | succ n ih =>
    intro p osc buf off counter i
    simp only [synthLoop]
    split_ifs <;> first
      | rfl
      | exact length_synthSeg ..
      | rw [ih, length_synthSeg]

/-- `synthesize` leaves the buffer length unchanged (helper lemma). -/
theorem length_synthesize (srate : ℚ) (p : PartialStruct) (buf : List ℚ)
    (samples : ℤ) :
    ((synthesize srate p buf samples).2).length = buf.length := by
  unfold synthesize
  split_ifs <;> first | rfl | exact length_synthLoop ..

/-- The queue-draining phase leaves the block length unchanged (helper
lemma). -/
theorem length_processQueue (srate : ℚ) (samples : ℤ) (queue : List ℕ) :
    ∀ (parts : List PartialStruct) (block : List ℚ),
      ((processQueue srate samples parts queue block).2.2).length = block.length := by
  induction queue with
  | nil => intros; rfl
  | cons idx rest ih =>
    intro parts block
    simp only [processQueue]
    rw [ih, length_synthesize]

/-- The activation scan leaves the block length unchanged (helper lemma). -/
theorem length_activateLoop (srate : ℚ) (processed samples : ℤ) (fuel : ℕ) :
    ∀ (parts : List PartialStruct) (idx : ℕ) (block : List ℚ),
      ((activateLoop srate processed samples fuel parts idx block).2.2.2).length =
        block.length := by
  induction fuel with
  | zero => intros; rfl
  | succ n ih =>
    intro parts idx block
    simp only [activateLoop]
    split_ifs <;> first | rfl | rw [ih, length_synthesize]

/-- Claim C2 (amended): `renderBlock` never fails. When the caller-provided
buffer's size is smaller than the requested sample count, line 183 reserves
capacity at least `samples` (leaving the size unchanged) and the call
proceeds to clear and render: a full block of exactly `samples` output
samples is always produced; no `BufferTooSmall` error path exists. -/
theorem c2_renderBlock_never_fails (size cap samples : ℕ) (hcap : size ≤ cap)
    (srate : ℚ) (st : SynthState) :
    samples ≤ (prepareBuffer size cap samples).2 ∧
    (prepareBuffer size cap samples).1 = size ∧
    ((synthesizeNext srate st (samples : ℤ)).2).length = samples := by
  refine ⟨?_, ?_, ?_⟩
  · unfold prepareBuffer
    split_ifs with h <;> (dsimp only; omega)
  · unfold prepareBuffer
    split_ifs <;> rfl
  · simp only [synthesizeNext]
    rw [length_activateLoop, length_processQueue]
    simp

/-- Witness for `c2_renderBlock_never_fails` with a zero-capacity buffer
and a one-sample request on the example session. -/
theorem c2_renderBlock_never_fails_witness :
    (1 : ℕ) ≤ (prepareBuffer 0 0 1).2 ∧ (prepareBuffer 0 0 1).1 = 0 ∧
    ((synthesizeNext 1 exState ((1 : ℕ) : ℤ)).2).length = 1 :=
  c2_renderBlock_never_fails 0 0 1 (le_refl 0) 1 exState

/-- The synthesizer state produced by one segment (helper lemma): the
breakpoint-phase store does not touch the state record, so the state after
`synthSeg` is exactly the cursor/frequency update of lines 298–304. -/
theorem synthSeg_state (srate : ℚ) (p : PartialStruct) (osc : OscState)
    (buf : List ℚ) (off : ℕ) (d j : ℤ) :
    (synthSeg srate p osc buf off d j).1.state =
      { currentSamp := p.state.currentSamp + d
        lastBreakpointIdx := j
        envelope := p.state.envelope
        prevFrequency := (bpAt p j).2.frequency } := rfl

/-- One segment never changes `numBreakpoints` (helper lemma). -/
theorem numBreakpoints_synthSeg (srate : ℚ) (p : PartialStruct) (osc : OscState)
    (buf : List ℚ) (off : ℕ) (d j : ℤ) :
    (synthSeg srate p osc buf off d j).1.numBreakpoints = p.numBreakpoints := rfl

/-- One segment never changes the breakpoint count (helper lemma). -/
theorem length_breakpoints_synthSeg (srate : ℚ) (p : PartialStruct)
    (osc : OscState) (buf : List ℚ) (off : ℕ) (d j : ℤ) :
    (synthSeg srate p osc buf off d j).1.breakpoints.length =
      p.breakpoints.length :=
  List.length_set ..

/-- One segment only rewrites a stored breakpoint phase; the breakpoint
times are unchanged (helper lemma). -/
theorem bpAt_fst_synthSeg (srate : ℚ) (p : PartialStruct) (osc : OscState)
    (buf : List ℚ) (off : ℕ) (d j k : ℤ) :
    (bpAt (synthSeg srate p osc buf off d j).1 k).1 = (bpAt p k).1 := by
  show (bpAt (setBpPhase p j _) k).1 = _
  unfold bpAt setBpPhase
  simp only [List.getD_eq_getElem?_getD, List.getElem?_set]
  by_cases h : j.toNat = k.toNat
  · rw [if_pos h, ← h]
    by_cases h2 : j.toNat < p.breakpoints.length
    · rw [if_pos h2]
      simp [Option.getD_some, bpAt, List.getD_eq_getElem?_getD]
    · rw [if_neg h2, List.getElem?_eq_none (Nat.le_of_not_lt h2)]
  · rw [if_neg h]

/-- Claim C6: in segment synthesis, whenever the cumulative samples of this
call plus the next segment's span would exceed the budget, the span is
clipped to exactly fill the remaining budget (`currentSamp` advances by
`samples - counter`) and `lastBreakpointIdx` is not advanced, so the same
segment (same target breakpoint, index `i = lastBreakpointIdx + 1`) resumes
on the next call. -/
theorem c6_clip_fills_budget_and_freezes_index (srate : ℚ) (samples : ℤ)
    (fuel : ℕ) (p : PartialStruct) (osc : OscState) (buf : List ℚ) (off : ℕ)
    (counter i : ℤ)
    (hi : i < p.numBreakpoints)
    (hstart : i = p.state.lastBreakpointIdx + 1)
    (hclip : counter + (rnd ((bpAt p i).1 * srate) - p.state.currentSamp) > samples) :
    (synthLoop srate samples (fuel + 1) p osc buf off counter i).1.state.lastBreakpointIdx =
      p.state.lastBreakpointIdx ∧
    (synthLoop srate samples (fuel + 1) p osc buf off counter i).1.state.currentSamp =
      p.state.currentSamp + (samples - counter) ∧
    (synthLoop srate samples (fuel + 1) p osc buf off counter i).1.state.lastBreakpointIdx + 1 =
      i := by
  have hr : synthLoop srate samples (fuel + 1) p osc buf off counter i =
      synthSeg srate p osc buf off (samples - counter) (i - 1) := by
    simp only [synthLoop]
    rw [if_pos hi, if_pos hclip]
  rw [hr, synthSeg_state]
  refine ⟨?_, ?_, ?_⟩
  · show i - 1 = p.state.lastBreakpointIdx
    omega
  · rfl
  · show (i - 1) + 1 = i
    omega

/-- Witness for `c6_clip_fills_budget_and_freezes_index`: partial `pW6` at
sample rate 10 with a 10-sample first segment and a 3-sample budget. -/
theorem c6_clip_fills_budget_and_freezes_index_witness :
    (synthLoop 10 3 1 pW6 ⟨exNull⟩ [0, 0, 0] 0 0 1).1.state.lastBreakpointIdx =
      pW6.state.lastBreakpointIdx ∧
    (synthLoop 10 3 1 pW6 ⟨exNull⟩ [0, 0, 0] 0 0 1).1.state.currentSamp =
      pW6.state.currentSamp + (3 - 0) ∧
    (synthLoop 10 3 1 pW6 ⟨exNull⟩ [0, 0, 0] 0 0 1).1.state.lastBreakpointIdx + 1 = 1 :=
  c6_clip_fills_budget_and_freezes_index 10 3 0 pW6 ⟨exNull⟩ [0, 0, 0] 0 0 1
    (by decide) (by decide) (by decide)

/-- One segment preserves the monotone-targets property, because it only
rewrites a stored phase (helper lemma). -/
theorem targetsMonotone_synthSeg (srate srate2 : ℚ) (p : PartialStruct)
    (osc : OscState) (buf : List ℚ) (off : ℕ) (d j : ℤ)
    (h : TargetsMonotone srate p) :
    TargetsMonotone srate (synthSeg srate2 p osc buf off d j).1 := by
  intro k hk
  have e1 : ∀ n : ℕ,
      ((synthSeg srate2 p osc buf off d j).1.breakpoints.getD n default).1 =
        (p.breakpoints.getD n default).1 := by
    intro n
    have h2 := bpAt_fst_synthSeg srate2 p osc buf off d j (n : ℤ)
    simpa [bpAt, Int.toNat_natCast] using h2
  rw [e1, e1]
  apply h
  rwa [length_breakpoints_synthSeg] at hk

/-- Invariant preservation of the segment loop (helper lemma): provided the
rounded breakpoint targets are monotone and the loop is entered in the
canonical configuration (`i = lastBreakpointIdx + 1`, budget not yet
exhausted, cursor at or before the next target), the loop never decreases
`currentSamp` or `lastBreakpointIdx`, keeps `lastBreakpointIdx` at most
`numBreakpoints - 1`, and preserves the breakpoint count. -/
theorem synthLoop_invariants (srate : ℚ) (samples : ℤ) (fuel : ℕ) :
    ∀ (p : PartialStruct) (osc : OscState) (buf : List ℚ) (off : ℕ)
      (counter i : ℤ),
      TargetsMonotone srate p →
      p.numBreakpoints = (p.breakpoints.length : ℤ) →
      i = p.state.lastBreakpointIdx + 1 →
      0 ≤ p.state.lastBreakpointIdx →
      i ≤ p.numBreakpoints →
      counter ≤ samples →
      (i < p.numBreakpoints → p.state.currentSamp ≤ rnd ((bpAt p i).1 * srate)) →
      p.state.currentSamp ≤
          (synthLoop srate samples fuel p osc buf off counter i).1.state.currentSamp ∧
        p.state.lastBreakpointIdx ≤
          (synthLoop srate samples fuel p osc buf off counter i).1.state.lastBreakpointIdx ∧
        (synthLoop srate samples fuel p osc buf off counter i).1.state.lastBreakpointIdx ≤
          p.numBreakpoints - 1 ∧
        (synthLoop srate samples fuel p osc buf off counter i).1.numBreakpoints =
          p.numBreakpoints ∧
        (synthLoop srate samples fuel p osc buf off counter i).1.breakpoints.length =
          p.breakpoints.length := by
  induction fuel with
  | zero =>
    intro p osc buf off counter i _ _ hstart _ hile _ _
    refine ⟨le_refl _, le_refl _, ?_, rfl, rfl⟩
    show p.state.lastBreakpointIdx ≤ p.numBreakpoints - 1
    omega
  | succ n ih =>
    intro p osc buf off counter i hmono hnb hstart hlast0 hile hcounter htg
    by_cases hi : i < p.numBreakpoints
    case neg =>
      have hr : synthLoop srate samples (n + 1) p osc buf off counter i = (p, osc, buf) := by
        simp only [synthLoop]
        rw [if_neg hi]
      rw [hr]
      refine ⟨le_refl _, le_refl _, ?_, rfl, rfl⟩
      show p.state.lastBreakpointIdx ≤ p.numBreakpoints - 1
      omega
    case pos =>
      have hcs : p.state.currentSamp ≤ rnd ((bpAt p i).1 * srate) := htg hi
      by_cases hclip : counter + (rnd ((bpAt p i).1 * srate) - p.state.currentSamp) > samples
      · have hr : synthLoop srate samples (n + 1) p osc buf off counter i =
            synthSeg srate p osc buf off (samples - counter) (i - 1) := by
          simp only [synthLoop]
          rw [if_pos hi, if_pos hclip]
        rw [hr, numBreakpoints_synthSeg, length_breakpoints_synthSeg, synthSeg_state]
        refine ⟨?_, ?_, ?_, rfl, rfl⟩
        · show p.state.currentSamp ≤ p.state.currentSamp + (samples - counter)
          omega
        · show p.state.lastBreakpointIdx ≤ i - 1
          omega
        · show i - 1 ≤ p.numBreakpoints - 1
          omega
      · by_cases hbreak : counter + (rnd ((bpAt p i).1 * srate) - p.state.currentSamp) ≥ samples
        · have hr : synthLoop srate samples (n + 1) p osc buf off counter i =
              synthSeg srate p osc buf off (rnd ((bpAt p i).1 * srate) - p.state.currentSamp) i := by
            simp only [synthLoop]
            rw [if_pos hi, if_neg hclip, if_pos hbreak]
          rw [hr, numBreakpoints_synthSeg, length_breakpoints_synthSeg, synthSeg_state]
          refine ⟨?_, ?_, ?_, rfl, rfl⟩
          · show p.state.currentSamp ≤
              p.state.currentSamp + (rnd ((bpAt p i).1 * srate) - p.state.currentSamp)
            omega
          · show p.state.lastBreakpointIdx ≤ i
            omega
          · show i ≤ p.numBreakpoints - 1
            omega
        · have hr : synthLoop srate samples (n + 1) p osc buf off counter i =
              synthLoop srate samples n
                (synthSeg srate p osc buf off (rnd ((bpAt p i).1 * srate) - p.state.currentSamp) i).1
                (synthSeg srate p osc buf off (rnd ((bpAt p i).1 * srate) - p.state.currentSamp) i).2.1
                (synthSeg srate p osc buf off (rnd ((bpAt p i).1 * srate) - p.state.currentSamp) i).2.2
                (off + (rnd ((bpAt p i).1 * srate) - p.state.currentSamp).toNat)
                (counter + (rnd ((bpAt p i).1 * srate) - p.state.currentSamp)) (i + 1) := by
            simp only [synthLoop]
            rw [if_pos hi, if_neg hclip, if_neg hbreak]
          have hstate := synthSeg_state srate p osc buf off
            (rnd ((bpAt p i).1 * srate) - p.state.currentSamp) i
          have hcs2 : (synthSeg srate p osc buf off
              (rnd ((bpAt p i).1 * srate) - p.state.currentSamp) i).1.state.currentSamp =
              rnd ((bpAt p i).1 * srate) := by
            rw [hstate]
            show p.state.currentSamp + (rnd ((bpAt p i).1 * srate) - p.state.currentSamp) = _
            omega
          have hlast2 : (synthSeg srate p osc buf off
              (rnd ((bpAt p i).1 * srate) - p.state.currentSamp) i).1.state.lastBreakpointIdx = i := by
            rw [hstate]
          have htg2 : i + 1 <
              (synthSeg srate p osc buf off
                (rnd ((bpAt p i).1 * srate) - p.state.currentSamp) i).1.numBreakpoints →
              (synthSeg srate p osc buf off
                (rnd ((bpAt p i).1 * srate) - p.state.currentSamp) i).1.state.currentSamp ≤
                rnd ((bpAt (synthSeg srate p osc buf off
                  (rnd ((bpAt p i).1 * srate) - p.state.currentSamp) i).1 (i + 1)).1 * srate) := by
            intro hi2
            rw [numBreakpoints_synthSeg] at hi2
            rw [hcs2, bpAt_fst_synthSeg]
            have hmono2 := hmono i.toNat (by omega)
            have e1 : (bpAt p i).1 = (p.breakpoints.getD i.toNat default).1 := rfl
            have e2 : (bpAt p (i + 1)).1 = (p.breakpoints.getD (i.toNat + 1) default).1 := by
              have h3 : (i + 1).toNat = i.toNat + 1 := by omega
              unfold bpAt
              rw [h3]
            rw [e1, e2]
            exact hmono2
          obtain ⟨ha, hb, hc, hd, he⟩ := ih
            (synthSeg srate p osc buf off (rnd ((bpAt p i).1 * srate) - p.state.currentSamp) i).1
            (synthSeg srate p osc buf off (rnd ((bpAt p i).1 * srate) - p.state.currentSamp) i).2.1
            (synthSeg srate p osc buf off (rnd ((bpAt p i).1 * srate) - p.state.currentSamp) i).2.2
            (off + (rnd ((bpAt p i).1 * srate) - p.state.currentSamp).toNat)
            (counter + (rnd ((bpAt p i).1 * srate) - p.state.currentSamp)) (i + 1)
            (targetsMonotone_synthSeg srate srate p osc buf off _ i hmono)
            (by rw [numBreakpoints_synthSeg, length_breakpoints_synthSeg]; exact hnb)
            (by rw [hlast2])
            (by rw [hlast2]; omega)
            (by rw [numBreakpoints_synthSeg]; omega)
            (by omega)
            htg2
          rw [hr]
          rw [numBreakpoints_synthSeg] at hd
          rw [length_breakpoints_synthSeg] at he
          refine ⟨?_, ?_, ?_, hd, he⟩
          · calc p.state.currentSamp ≤ rnd ((bpAt p i).1 * srate) := hcs
              _ = _ := hcs2.symm
              _ ≤ _ := ha
          · calc p.state.lastBreakpointIdx ≤ i := by omega
              _ = _ := hlast2.symm
              _ ≤ _ := hb
          · calc (synthLoop srate samples n _ _ _ _ _ _).1.state.lastBreakpointIdx ≤ _ := hc
              _ = p.numBreakpoints - 1 := by rw [numBreakpoints_synthSeg]

/-- Claim C9: within one epoch (between activations/resets), one
`synthesize` call never decreases `currentSamp` or `lastBreakpointIdx`,
keeps `lastBreakpointIdx ≤ numBreakpoints - 1`, the re-queue test used by
`synthesizeNext` (`lastBreakpointIdx < numBreakpoints - 1`) fails exactly
when `lastBreakpointIdx = numBreakpoints - 1` ("finished"), and a finished
partial is never touched again (`synthesize` is the identity on it). -/
theorem c9_cursor_and_retirement_invariants (srate : ℚ) (samples : ℤ)
    (p : PartialStruct) (buf : List ℚ)
    (hmono : TargetsMonotone srate p)
    (hnb : p.numBreakpoints = (p.breakpoints.length : ℤ))
    (hlast0 : 0 ≤ p.state.lastBreakpointIdx)
    (hbound : p.state.lastBreakpointIdx ≤ p.numBreakpoints - 1)
    (hsam : 0 ≤ samples)
    (htg : p.state.lastBreakpointIdx + 1 < p.numBreakpoints →
      p.state.currentSamp ≤ rnd ((bpAt p (p.state.lastBreakpointIdx + 1)).1 * srate)) :
    p.state.currentSamp ≤ (synthesize srate p buf samples).1.state.currentSamp ∧
    p.state.lastBreakpointIdx ≤
      (synthesize srate p buf samples).1.state.lastBreakpointIdx ∧
    (synthesize srate p buf samples).1.state.lastBreakpointIdx ≤
      (synthesize srate p buf samples).1.numBreakpoints - 1 ∧
    (¬ (synthesize srate p buf samples).1.state.lastBreakpointIdx <
        (synthesize srate p buf samples).1.numBreakpoints - 1 ↔
      (synthesize srate p buf samples).1.state.lastBreakpointIdx =
        (synthesize srate p buf samples).1.numBreakpoints - 1) ∧
    (p.state.lastBreakpointIdx = p.numBreakpoints - 1 →
      synthesize srate p buf samples = (p, buf)) := by
  have hfin : p.state.lastBreakpointIdx = p.numBreakpoints - 1 →
      synthesize srate p buf samples = (p, buf) := by
    intro h
    unfold synthesize
    split_ifs with g1 g2 <;> first | rfl | exact absurd h (by omega)
  by_cases hg : synthGuard p
  · have hr : synthesize srate p buf samples = (p, buf) := by
      unfold synthesize
      rw [if_pos hg]
    rw [hr]
    exact ⟨le_refl _, le_refl _, hbound, by dsimp only; omega, fun _ => rfl⟩
  · by_cases hdone : p.state.lastBreakpointIdx ≥ p.numBreakpoints - 1
    · have hr : synthesize srate p buf samples = (p, buf) := by
        unfold synthesize
        rw [if_neg hg, if_pos hdone]
      rw [hr]
      exact ⟨le_refl _, le_refl _, hbound, by dsimp only; omega, fun _ => rfl⟩
    · have hr : synthesize srate p buf samples =
          ({ (synthLoop srate samples
                (p.numBreakpoints - (p.state.lastBreakpointIdx + 1)).toNat p
                (if p.state.lastBreakpointIdx = NoBreakpointProcessed then
                  resetEnvelopes p.state.envelope srate
                 else restoreEnvelopes p.state.envelope) buf 0 0
                (p.state.lastBreakpointIdx + 1)).1 with
              state := { (synthLoop srate samples
                (p.numBreakpoints - (p.state.lastBreakpointIdx + 1)).toNat p
                (if p.state.lastBreakpointIdx = NoBreakpointProcessed then
                  resetEnvelopes p.state.envelope srate
                 else restoreEnvelopes p.state.envelope) buf 0 0
                (p.state.lastBreakpointIdx + 1)).1.state with
                  envelope := (synthLoop srate samples
                    (p.numBreakpoints - (p.state.lastBreakpointIdx + 1)).toNat p
                    (if p.state.lastBreakpointIdx = NoBreakpointProcessed then
                      resetEnvelopes p.state.envelope srate
                     else restoreEnvelopes p.state.envelope) buf 0 0
                    (p.state.lastBreakpointIdx + 1)).2.1.envelopes } },
           (synthLoop srate samples
              (p.numBreakpoints - (p.state.lastBreakpointIdx + 1)).toNat p
              (if p.state.lastBreakpointIdx = NoBreakpointProcessed then
                resetEnvelopes p.state.envelope srate
               else restoreEnvelopes p.state.envelope) buf 0 0
              (p.state.lastBreakpointIdx + 1)).2.2) := by
        unfold synthesize
        rw [if_neg hg, if_neg hdone]
      obtain ⟨ha, hb, hc, hd, _⟩ := synthLoop_invariants srate samples
        (p.numBreakpoints - (p.state.lastBreakpointIdx + 1)).toNat p
        (if p.state.lastBreakpointIdx = NoBreakpointProcessed then
          resetEnvelopes p.state.envelope srate
         else restoreEnvelopes p.state.envelope) buf 0 0
        (p.state.lastBreakpointIdx + 1) hmono hnb rfl hlast0 (by omega) hsam htg
      rw [hr]
      dsimp only
      exact ⟨ha, hb, by omega, by omega, fun h => absurd h (by omega)⟩

/-- Witness for `c9_cursor_and_retirement_invariants` on the concrete
freshly-activated partial `pW9` at sample rate 1 with a 4-sample budget. -/
theorem c9_cursor_and_retirement_invariants_witness :
    pW9.state.currentSamp ≤ (synthesize 1 pW9 [0, 0, 0, 0] 4).1.state.currentSamp ∧
    pW9.state.lastBreakpointIdx ≤
      (synthesize 1 pW9 [0, 0, 0, 0] 4).1.state.lastBreakpointIdx ∧
    (synthesize 1 pW9 [0, 0, 0, 0] 4).1.state.lastBreakpointIdx ≤
      (synthesize 1 pW9 [0, 0, 0, 0] 4).1.numBreakpoints - 1 ∧
    (¬ (synthesize 1 pW9 [0, 0, 0, 0] 4).1.state.lastBreakpointIdx <
        (synthesize 1 pW9 [0, 0, 0, 0] 4).1.numBreakpoints - 1 ↔
      (synthesize 1 pW9 [0, 0, 0, 0] 4).1.state.lastBreakpointIdx =
        (synthesize 1 pW9 [0, 0, 0, 0] 4).1.numBreakpoints - 1) ∧
    (pW9.state.lastBreakpointIdx = pW9.numBreakpoints - 1 →
      synthesize 1 pW9 [0, 0, 0, 0] 4 = (pW9, [0, 0, 0, 0])) :=
  c9_cursor_and_retirement_invariants 1 4 pW9 [0, 0, 0, 0]
    (by decide) (by decide) (by decide) (by decide) (by decide) (by decide)

end Loris
